import Mathlib

/-!
Verification of the realtime market streamer's core against its design
document.  The development shallowly embeds `src/backend/store.py`
(`MarketStore`) and `src/backend/stream_worker.py` (`BinanceStreamClient`,
`start_worker`).  Prices, quantities, delays and timestamps are Python
floats in the source; they are modelled as exact rationals.  Deques are
modelled as lists oldest-first together with their `maxlen`.
-/

namespace RMS

/-- Python `collections.deque` append with a `maxlen`: the element is
appended on the right and, when the size then exceeds `maxlen`, the
oldest (leftmost) element is discarded (for `maxlen = 0` the deque thus
stays empty). -/
def dequeAppend (maxlen : Nat) (xs : List α) (x : α) : List α :=
  if maxlen < (xs ++ [x]).length then (xs ++ [x]).drop 1 else xs ++ [x]

/-- Python `collections.deque(maxlen=m)` construction: raises `ValueError`
when `maxlen` is negative, otherwise creates an empty deque (`maxlen = 0`
is accepted). -/
def dequeNew (α : Type) (maxlen : Int) : Except String (List α) :=
  if maxlen < 0 then .error "maxlen must be non-negative" else .ok []

/-- a trade record as built by `_process_trade_update` and stored by
`MarketStore.add_trade`. -/
structure Trade where
  price : ℚ
  qty : ℚ
  time : ℚ
  is_buyer_maker : Bool
  side : String
  deriving DecidableEq, Repr

/-- the fields of `MarketStore` (store.py lines 23-40): four metric series
deques sharing `maxlen=max_metrics`, the trades deque with
`maxlen=max_trades`, and the current-book fields. -/
structure MarketState where
  maxMetrics : Nat
  maxTrades : Nat
  mid_prices : List ℚ
  spreads : List ℚ
  imbalances : List ℚ
  timestamps : List ℚ
  recent_trades : List Trade
  best_bid : Option ℚ
  best_ask : Option ℚ
  bid_volume : Option ℚ
  ask_volume : Option ℚ
  top_bids : List (ℚ × ℚ)
  top_asks : List (ℚ × ℚ)
  deriving DecidableEq, Repr

/-- the store state `MarketStore.__init__` produces once the deques have
been created: everything empty, the current-book fields `None`. -/
def MarketStore.fresh (max_metrics max_trades : Nat) : MarketState :=
  { maxMetrics := max_metrics, maxTrades := max_trades,
    mid_prices := [], spreads := [], imbalances := [], timestamps := [],
    recent_trades := [], best_bid := none, best_ask := none,
    bid_volume := none, ask_volume := none, top_bids := [], top_asks := [] }

/-- `MarketStore.__init__(max_metrics, max_trades)`: constructs the four
series deques with `maxlen=max_metrics` and the trades deque with
`maxlen=max_trades` (a negative `maxlen` raises `ValueError`, see
`dequeNew`), then initializes the current-book fields. -/
def MarketStore.init (max_metrics max_trades : Int) : Except String MarketState := do
  let mids ← dequeNew ℚ max_metrics
  let sps ← dequeNew ℚ max_metrics
  let imbs ← dequeNew ℚ max_metrics
  let tss ← dequeNew ℚ max_metrics
  let trs ← dequeNew Trade max_trades
  return { maxMetrics := max_metrics.toNat, maxTrades := max_trades.toNat,
           mid_prices := mids, spreads := sps, imbalances := imbs,
           timestamps := tss, recent_trades := trs,
           best_bid := none, best_ask := none,
           bid_volume := none, ask_volume := none,
           top_bids := [], top_asks := [] }

/-- whether `MarketStore.__init__` raises. -/
def initRaises (max_metrics max_trades : Int) : Bool :=
  match MarketStore.init max_metrics max_trades with
  | .error _ => true
  | .ok _ => false

/-- the arguments of one `MarketStore.update_book_metrics` call; in the
source `bid_volume`/`ask_volume` default to `0.0` and
`top_bids`/`top_asks` default to `None` — here every argument is passed
explicitly, with `none` standing for the `None` default. -/
structure BookUpdate where
  best_bid : ℚ
  best_ask : ℚ
  mid_price : ℚ
  spread : ℚ
  imbalance : ℚ
  timestamp : ℚ
  bid_volume : ℚ
  ask_volume : ℚ
  top_bids : Option (List (ℚ × ℚ))
  top_asks : Option (List (ℚ × ℚ))
  deriving DecidableEq, Repr

/-- `MarketStore.update_book_metrics` (lines 69-83): replaces the
current-book fields, overwrites the stored top levels only when the
corresponding argument `is not None`, and appends one point to each of
the four series deques. -/
def update_book_metrics (s : MarketState) (u : BookUpdate) : MarketState :=
  { s with
    best_bid := some u.best_bid,
    best_ask := some u.best_ask,
    bid_volume := some u.bid_volume,
    ask_volume := some u.ask_volume,
    top_bids := u.top_bids.getD s.top_bids,
    top_asks := u.top_asks.getD s.top_asks,
    mid_prices := dequeAppend s.maxMetrics s.mid_prices u.mid_price,
    spreads := dequeAppend s.maxMetrics s.spreads u.spread,
    imbalances := dequeAppend s.maxMetrics s.imbalances u.imbalance,
    timestamps := dequeAppend s.maxMetrics s.timestamps u.timestamp }

/-- `MarketStore.add_trade` (lines 92-93). -/
def add_trade (s : MarketState) (t : Trade) : MarketState :=
  { s with recent_trades := dequeAppend s.maxTrades s.recent_trades t }

/-- the record returned by `MarketStore.snapshot`. -/
structure Snapshot where
  best_bid : Option ℚ
  best_ask : Option ℚ
  bid_volume : Option ℚ
  ask_volume : Option ℚ
  current_mid : Option ℚ
  current_spread : Option ℚ
  current_imbalance : Option ℚ
  mid_prices : List ℚ
  spreads : List ℚ
  imbalances : List ℚ
  timestamps : List ℚ
  top_bids : List (ℚ × ℚ)
  top_asks : List (ℚ × ℚ)
  recent_trades : List Trade
  data_points : Nat
  last_update : Option ℚ
  deriving DecidableEq, Repr

/-- `MarketStore.snapshot` (lines 102-129): copies all fields into a fresh
record.  Python's `xs[-1] if xs else None` is `List.getLast?`;
`list(reversed(self.recent_trades))` is `List.reverse`; `data_points` is
`len(self.mid_prices)`. -/
def snapshot (s : MarketState) : Snapshot :=
  { best_bid := s.best_bid, best_ask := s.best_ask,
    bid_volume := s.bid_volume, ask_volume := s.ask_volume,
    current_mid := s.mid_prices.getLast?,
    current_spread := s.spreads.getLast?,
    current_imbalance := s.imbalances.getLast?,
    mid_prices := s.mid_prices, spreads := s.spreads,
    imbalances := s.imbalances, timestamps := s.timestamps,
    top_bids := s.top_bids, top_asks := s.top_asks,
    recent_trades := s.recent_trades.reverse,
    data_points := s.mid_prices.length,
    last_update := s.timestamps.getLast? }

/-- `MarketStore.clear` (lines 133-144): empties every deque (a deque's
`maxlen` survives `clear()`) and resets the current-book fields. -/
def clear (s : MarketState) : MarketState :=
  { s with
    mid_prices := [], spreads := [], imbalances := [], timestamps := [],
    recent_trades := [], best_bid := none, best_ask := none,
    bid_volume := none, ask_volume := none, top_bids := [], top_asks := [] }

/-- `TOP_N = 5` (stream_worker.py line 16). -/
def TOP_N : Nat := 5

/-- `RECONNECT_BASE_DELAY = 1.0` (line 17). -/
def RECONNECT_BASE_DELAY : ℚ := 1

/-- `RECONNECT_MAX_DELAY = 30.0` (line 18). -/
def RECONNECT_MAX_DELAY : ℚ := 30

/-- `RECONNECT_MULTIPLIER = 2.0` (line 19). -/
def RECONNECT_MULTIPLIER : ℚ := 2

/-- the comparison realised by `bids.sort(reverse=True, key=lambda x: x[0])`:
price descending, equal prices kept in input order. -/
def bidOrder : (ℚ × ℚ) → (ℚ × ℚ) → Prop := fun a b => b.1 ≤ a.1

instance : DecidableRel bidOrder := fun a b => inferInstanceAs (Decidable (b.1 ≤ a.1))

/-- the comparison realised by `asks.sort(key=lambda x: x[0])`: price
ascending, equal prices kept in input order. -/
def askOrder : (ℚ × ℚ) → (ℚ × ℚ) → Prop := fun a b => a.1 ≤ b.1

instance : DecidableRel askOrder := fun a b => inferInstanceAs (Decidable (a.1 ≤ b.1))

/-- `bids.sort(reverse=True, key=lambda x: x[0])` (line 149): Python's
`list.sort` is a stable sort, modelled by the stable `List.insertionSort`. -/
def sortBids (bids : List (ℚ × ℚ)) : List (ℚ × ℚ) := bids.insertionSort bidOrder

/-- `asks.sort(key=lambda x: x[0])` (line 150). -/
def sortAsks (asks : List (ℚ × ℚ)) : List (ℚ × ℚ) := asks.insertionSort askOrder

/-- `top_bids = bids[:TOP_N]` on the sorted bid levels (line 159). -/
def depthTopBids (bids : List (ℚ × ℚ)) : List (ℚ × ℚ) := (sortBids bids).take TOP_N

/-- `top_asks = asks[:TOP_N]` on the sorted ask levels (line 160). -/
def depthTopAsks (asks : List (ℚ × ℚ)) : List (ℚ × ℚ) := (sortAsks asks).take TOP_N

/-- `bid_volume = sum(qty for _, qty in top_bids)` (line 162). -/
def depthBidVolume (bids : List (ℚ × ℚ)) : ℚ := ((depthTopBids bids).map Prod.snd).sum

/-- `ask_volume = sum(qty for _, qty in top_asks)` (line 163). -/
def depthAskVolume (asks : List (ℚ × ℚ)) : ℚ := ((depthTopAsks asks).map Prod.snd).sum

/-- `imbalance = (bid_volume - ask_volume) / total_volume if total_volume > 0
else 0.0` (lines 166-167). -/
def depthImbalance (bids asks : List (ℚ × ℚ)) : ℚ :=
  if 0 < depthBidVolume bids + depthAskVolume asks then
    (depthBidVolume bids - depthAskVolume asks) / (depthBidVolume bids + depthAskVolume asks)
  else 0

/-- the metric computation of `_process_depth_update` (lines 139-183) on the
already-parsed levels: `none` when either side is empty (the early return
at line 146), otherwise the `BookUpdate` passed to
`store.update_book_metrics`, with `now` standing for `time.time()`.  The
final catch-all branch mirrors the `IndexError` handler at line 185 and is
unreachable, since sorting preserves nonemptiness. -/
def computeDepthMetrics (bids asks : List (ℚ × ℚ)) (now : ℚ) : Option BookUpdate :=
  if bids.isEmpty || asks.isEmpty then none
  else
    match sortBids bids, sortAsks asks with
    | (best_bid, bid_qty) :: _, (best_ask, ask_qty) :: _ =>
        some { best_bid := best_bid, best_ask := best_ask,
               mid_price := (best_bid + best_ask) / 2,
               spread := best_ask - best_bid,
               imbalance := depthImbalance bids asks,
               timestamp := now,
               bid_volume := bid_qty, ask_volume := ask_qty,
               top_bids := some (depthTopBids bids),
               top_asks := some (depthTopAsks asks) }
    | _, _ => none

/-- `BinanceStreamClient._process_depth_update`: compute the metrics and,
unless the update was filtered out, hand them to
`store.update_book_metrics`. -/
def processDepthUpdate (s : MarketState) (bids asks : List (ℚ × ℚ)) (now : ℚ) : MarketState :=
  match computeDepthMetrics bids asks now with
  | none => s
  | some u => update_book_metrics s u

/-- one call arriving at `MarketStore`'s public mutating interface. -/
inductive StoreOp where
  | update (u : BookUpdate)
  | trade (t : Trade)
  | clearOp
  deriving DecidableEq, Repr

def applyStoreOp (s : MarketState) : StoreOp → MarketState
  | .update u => update_book_metrics s u
  | .trade t => add_trade s t
  | .clearOp => clear s

def applyStoreOps (s : MarketState) (ops : List StoreOp) : MarketState :=
  ops.foldl applyStoreOp s

/-- the `update_book_metrics` arguments of a call sequence, in call order. -/
def storeUpdates (ops : List StoreOp) : List BookUpdate :=
  ops.filterMap fun op => match op with | .update u => some u | _ => none

/-- the `add_trade` arguments of a call sequence, in call order. -/
def storeTrades (ops : List StoreOp) : List Trade :=
  ops.filterMap fun op => match op with | .trade t => some t | _ => none

/-- one event handled by the ingestion path: a depth message (parsed bid and
ask levels plus the wall-clock time of its processing), a trade message,
or a `clear()` test reset. -/
inductive IngestOp where
  | depth (bids asks : List (ℚ × ℚ)) (now : ℚ)
  | trade (t : Trade)
  | clearOp
  deriving DecidableEq, Repr

def applyIngestOp (s : MarketState) : IngestOp → MarketState
  | .depth bids asks now => processDepthUpdate s bids asks now
  | .trade t => add_trade s t
  | .clearOp => clear s

def applyIngestOps (s : MarketState) (ops : List IngestOp) : MarketState :=
  ops.foldl applyIngestOp s

/-- the outcome of one `websockets.connect` attempt inside
`connect_and_stream`: either the handshake raises (with `str(e)` as the
message) or the connection succeeds — and later ends (stale connection,
read/process error), sending the outer loop into a new attempt. -/
inductive ConnEvent where
  | failure (msg : String)
  | success
  deriving DecidableEq, Repr

/-- evolution of `self._reconnect_delay` over one attempt: a successful
connection resets it to `RECONNECT_BASE_DELAY` (line 67); a failed one is
followed by `min(delay * RECONNECT_MULTIPLIER, RECONNECT_MAX_DELAY)`
(lines 98-101). -/
def reconnectDelayAfter (d : ℚ) : ConnEvent → ℚ
  | .success => RECONNECT_BASE_DELAY
  | .failure _ => min (d * RECONNECT_MULTIPLIER) RECONNECT_MAX_DELAY

/-- the delays `connect_and_stream` actually sleeps: before each retry the
current `_reconnect_delay` is slept (line 95) and only then updated. -/
def sleptDelays (d : ℚ) : List ConnEvent → List ℚ
  | [] => []
  | .success :: evs => sleptDelays RECONNECT_BASE_DELAY evs
  | .failure m :: evs => d :: sleptDelays (reconnectDelayAfter d (.failure m)) evs

/-- the `BinanceStreamClient` fields mutated by the reconnect loop. -/
structure ClientState where
  running : Bool
  reconnect_delay : ℚ
  deriving DecidableEq, Repr

/-- `BinanceStreamClient.__init__` (lines 42-43): `running = False` and
`_reconnect_delay = RECONNECT_BASE_DELAY`. -/
def ClientState.init : ClientState :=
  { running := false, reconnect_delay := RECONNECT_BASE_DELAY }

/-- the `while self.running` loop of `connect_and_stream` (lines 62-103)
over a schedule of attempt outcomes.  A failed attempt is caught by the
`except Exception` handler at line 91, which sleeps and doubles the
backoff while `self.running` holds; errors during an open connection only
`break` the inner receive loop (lines 77-89) and lead back to a new
attempt.  The loop therefore ends only through `self.running` becoming
false (the schedule running out models `stop()`), and no exception ever
propagates to the caller: the `.error` constructor of the result type is
never produced. -/
def connectLoop (s : ClientState) : List ConnEvent → Except String ClientState
  | [] => .ok { s with running := false }
  | ev :: evs =>
      if s.running then
        connectLoop { s with reconnect_delay := reconnectDelayAfter s.reconnect_delay ev } evs
      else .ok s

/-- `connect_and_stream` (lines 55-105): sets `self.running = True` and
enters the reconnect loop. -/
def connectAndStream (s : ClientState) (evs : List ConnEvent) : Except String ClientState :=
  connectLoop { s with running := true } evs

/-- `try_connect` of `start_worker.run_async_loop` (lines 240-253): awaits
`connect_and_stream`; only when that call itself raises does the handler
run — `http_451_count` is incremented when `"451" in str(e)`, the worker
switches to the mock source at count 3 (returning normally), and the
exception is re-raised otherwise.  Result: the new `http_451_count`,
whether `start_mock_worker` was invoked, and the escaping exception if
any. -/
def tryConnect (count : Nat) (s : ClientState) (evs : List ConnEvent) :
    Nat × Bool × Option String :=
  match connectAndStream s evs with
  | .ok _ => (count, false, none)
  | .error e =>
      if (e.splitOn "451").length ≠ 1 then
        if 3 ≤ count + 1 then (count + 1, true, none)
        else (count + 1, false, some e)
      else (count, false, some e)

/-- `run_async_loop` (lines 232-257): starts `http_451_count` at 0 and
awaits `try_connect` exactly once (line 255); returns the final count and
whether the worker switched to the mock data source. -/
def runAsyncLoop (evs : List ConnEvent) : Nat × Bool :=
  ((tryConnect 0 ClientState.init evs).1, (tryConnect 0 ClientState.init evs).2.1)

/-- the last `c` elements of a list — the contents a `maxlen = c` deque
retains. -/
def lastN (c : Nat) (l : List α) : List α := l.drop (l.length - c)

/-- a small concrete `update_book_metrics` argument record (top levels left
at their `None` default), indexed by `k` for distinguishable series
values. -/
def wu (k : ℚ) : BookUpdate :=
  { best_bid := k, best_ask := k + 1, mid_price := k, spread := 1, imbalance := 0,
    timestamp := k, bid_volume := 0, ask_volume := 0, top_bids := none, top_asks := none }

/-- the bid side of the design document's imbalance example: volumes
`[10, 8, 6, 4, 2]`. -/
def exBids : List (ℚ × ℚ) :=
  [(50000, 10), (49999, 8), (49998, 6), (49997, 4), (49996, 2)]

/-- the ask side of the design document's imbalance example: volumes
`[2, 2, 2, 2, 2]`. -/
def exAsks : List (ℚ × ℚ) :=
  [(50001, 2), (50002, 2), (50003, 2), (50004, 2), (50005, 2)]

/-- an `update_book_metrics` call that records top-of-book levels priced
100/101. -/
def demoTopsUpdate : BookUpdate :=
  { best_bid := 100, best_ask := 101, mid_price := 201/2, spread := 1, imbalance := 0,
    timestamp := 1, bid_volume := 2, ask_volume := 3,
    top_bids := some [(100, 2)], top_asks := some [(101, 3)] }

/-- a subsequent `update_book_metrics` call that moves the best prices to
200/201 but leaves `top_bids`/`top_asks` at their `None` default. -/
def demoNoTopsUpdate : BookUpdate :=
  { best_bid := 200, best_ask := 201, mid_price := 401/2, spread := 1, imbalance := 0,
    timestamp := 2, bid_volume := 4, ask_volume := 5, top_bids := none, top_asks := none }

/-- the store after the two calls above on a fresh store. -/
def demoMismatch : MarketState :=
  update_book_metrics (update_book_metrics (MarketStore.fresh 10 10) demoTopsUpdate)
    demoNoTopsUpdate

lemma length_lastN_le (c : Nat) (l : List α) : (lastN c l).length ≤ c := by
  simp only [lastN, List.length_drop]
  omega

lemma lastN_of_length_le {c : Nat} {l : List α} (h : l.length ≤ c) : lastN c l = l := by
  simp [lastN, Nat.sub_eq_zero_of_le h]

lemma lastN_suffix (c : Nat) (l : List α) : lastN c l <:+ l :=
  List.drop_suffix _ _

lemma dequeAppend_eq_lastN {c : Nat} {xs : List α} (x : α) (h : xs.length ≤ c) :
    dequeAppend c xs x = lastN c (xs ++ [x]) := by
  simp only [dequeAppend, lastN, List.length_append, List.length_cons, List.length_nil]
  by_cases hc : c < xs.length + (0 + 1)
  · rw [if_pos hc]
    have : xs.length + (0 + 1) - c = 1 := by omega
    rw [this]
  · rw [if_neg hc]
    have : xs.length + (0 + 1) - c = 0 := by omega
    rw [this, List.drop_zero]

lemma length_dequeAppend_le {c : Nat} {xs : List α} (x : α) (h : xs.length ≤ c) :
    (dequeAppend c xs x).length ≤ c := by
  rw [dequeAppend_eq_lastN x h]
  exact length_lastN_le c _

lemma lastN_append_lastN (c : Nat) (l t : List α) :
    lastN c (lastN c l ++ t) = lastN c (l ++ t) := by
  unfold lastN
  rw [← List.drop_append_of_le_length (Nat.sub_le l.length c), List.drop_drop]
  congr 1
  simp only [List.length_drop, List.length_append]
  omega

lemma map_lastN (c : Nat) (f : α → β) (l : List α) :
    (lastN c l).map f = lastN c (l.map f) := by
  simp [lastN, List.map_drop]

lemma foldl_dequeAppend (c : Nat) (vs : List α) :
    ∀ xs : List α, xs.length ≤ c →
      List.foldl (dequeAppend c) xs vs = lastN c (xs ++ vs) := by
  induction vs with
  | nil => intro xs h; simp [lastN_of_length_le h]
  | cons v vs ih =>
      intro xs h
      rw [List.foldl_cons, dequeAppend_eq_lastN v h,
        ih _ (length_lastN_le c _), lastN_append_lastN, List.append_assoc]
      rfl

lemma suffix_append_singleton {L M : List α} (x : α) (h : L <:+ M) :
    L ++ [x] <:+ M ++ [x] := by
  obtain ⟨t, rfl⟩ := h
  exact ⟨t, (List.append_assoc t L [x]).symm⟩

lemma applyStoreOps_append (s : MarketState) (ops : List StoreOp) (op : StoreOp) :
    applyStoreOps s (ops ++ [op]) = applyStoreOp (applyStoreOps s ops) op := by
  simp [applyStoreOps]

/-- every state reachable through the public interface of `MarketStore` has
its four series equal to the pointwise projections of one single suffix
`L` of the sequence of `update_book_metrics` calls, and its trade deque
equal to one suffix `T` of the sequence of `add_trade` calls; capacities
are untouched and deque lengths stay bounded. -/
lemma store_reach_spec (mm mt : Nat) (ops : List StoreOp) :
    ∃ L T, L <:+ storeUpdates ops ∧ T <:+ storeTrades ops ∧
      (applyStoreOps (MarketStore.fresh mm mt) ops).maxMetrics = mm ∧
      (applyStoreOps (MarketStore.fresh mm mt) ops).maxTrades = mt ∧
      (applyStoreOps (MarketStore.fresh mm mt) ops).mid_prices
        = L.map (fun u => u.mid_price) ∧
      (applyStoreOps (MarketStore.fresh mm mt) ops).spreads
        = L.map (fun u => u.spread) ∧
      (applyStoreOps (MarketStore.fresh mm mt) ops).imbalances
        = L.map (fun u => u.imbalance) ∧
      (applyStoreOps (MarketStore.fresh mm mt) ops).timestamps
        = L.map (fun u => u.timestamp) ∧
      (applyStoreOps (MarketStore.fresh mm mt) ops).recent_trades = T ∧
      L.length ≤ mm ∧ T.length ≤ mt := by
  induction ops using List.reverseRecOn with
  | nil =>
      exact ⟨[], [], List.nil_suffix, List.nil_suffix, rfl, rfl, rfl, rfl, rfl, rfl,
        rfl, by simp, by simp⟩
  | append_singleton ops op ih =>
      obtain ⟨L, T, hL, hT, hmm, hmt, h1, h2, h3, h4, hR, hlenL, hlenT⟩ := ih
      rw [applyStoreOps_append]
      cases op with
      | update u =>
          have hup : storeUpdates (ops ++ [StoreOp.update u]) = storeUpdates ops ++ [u] := by
            simp [storeUpdates]
          have htr : storeTrades (ops ++ [StoreOp.update u]) = storeTrades ops := by
            simp [storeTrades]
          have key : ∀ f : BookUpdate → ℚ,
              dequeAppend mm (L.map f) (f u) = (lastN mm (L ++ [u])).map f := by
            intro f
            rw [dequeAppend_eq_lastN (f u) (by rw [List.length_map]; exact hlenL), map_lastN]
            congr 1
            simp
          refine ⟨lastN mm (L ++ [u]), T,
            hup ▸ (lastN_suffix mm (L ++ [u])).trans (suffix_append_singleton u hL),
            htr ▸ hT, ?_, ?_, ?_, ?_, ?_, ?_, ?_, length_lastN_le mm _, hlenT⟩ <;>
            simp [applyStoreOp, update_book_metrics, hmm, hmt, h1, h2, h3, h4, hR, key]
      | trade t =>
          have hup : storeUpdates (ops ++ [StoreOp.trade t]) = storeUpdates ops := by
            simp [storeUpdates]
          have htr : storeTrades (ops ++ [StoreOp.trade t]) = storeTrades ops ++ [t] := by
            simp [storeTrades]
          have key : dequeAppend mt T t = lastN mt (T ++ [t]) :=
            dequeAppend_eq_lastN t hlenT
          refine ⟨L, lastN mt (T ++ [t]),
            hup ▸ hL,
            htr ▸ (lastN_suffix mt (T ++ [t])).trans (suffix_append_singleton t hT),
            ?_, ?_, ?_, ?_, ?_, ?_, ?_, hlenL, length_lastN_le mt _⟩ <;>
            simp [applyStoreOp, add_trade, hmm, hmt, h1, h2, h3, h4, hR, key]
      | clearOp =>
          have hup : storeUpdates (ops ++ [StoreOp.clearOp]) = storeUpdates ops := by
            simp [storeUpdates]
          have htr : storeTrades (ops ++ [StoreOp.clearOp]) = storeTrades ops := by
            simp [storeTrades]
          refine ⟨[], [], hup ▸ List.nil_suffix, htr ▸ List.nil_suffix,
            ?_, ?_, ?_, ?_, ?_, ?_, ?_, by simp, by simp⟩ <;>
            simp [applyStoreOp, clear, hmm, hmt]

/-- for a pure `update_book_metrics` call sequence, each series is the fold
of the deque append over the corresponding argument projections. -/
lemma applyStoreOps_updates (us : List BookUpdate) :
    ∀ s : MarketState,
      (applyStoreOps s (us.map StoreOp.update)).mid_prices
        = List.foldl (dequeAppend s.maxMetrics) s.mid_prices (us.map (fun u => u.mid_price)) ∧
      (applyStoreOps s (us.map StoreOp.update)).spreads
        = List.foldl (dequeAppend s.maxMetrics) s.spreads (us.map (fun u => u.spread)) ∧
      (applyStoreOps s (us.map StoreOp.update)).imbalances
        = List.foldl (dequeAppend s.maxMetrics) s.imbalances (us.map (fun u => u.imbalance)) ∧
      (applyStoreOps s (us.map StoreOp.update)).timestamps
        = List.foldl (dequeAppend s.maxMetrics) s.timestamps (us.map (fun u => u.timestamp)) := by
  induction us with
  | nil => intro s; exact ⟨rfl, rfl, rfl, rfl⟩
  | cons u us ih =>
      intro s
      simpa [applyStoreOps, applyStoreOp] using ih (update_book_metrics s u)

lemma applyIngestOps_append (s : MarketState) (ops : List IngestOp) (op : IngestOp) :
    applyIngestOps s (ops ++ [op]) = applyIngestOp (applyIngestOps s ops) op := by
  simp [applyIngestOps]

/-- whenever `_process_depth_update` does produce a `BookUpdate`, the top
levels it carries are nonempty and headed by exactly the best prices it
carries. -/
lemma computeDepthMetrics_tops {bids asks : List (ℚ × ℚ)} {now : ℚ} {u : BookUpdate}
    (h : computeDepthMetrics bids asks now = some u) :
    (∃ bq rest, u.top_bids = some ((u.best_bid, bq) :: rest)) ∧
    (∃ aq rest, u.top_asks = some ((u.best_ask, aq) :: rest)) := by
  simp only [computeDepthMetrics] at h
  split at h
  · cases h
  · split at h
    case _ bb bq bs aa aq as2 hsb hsa =>
      rw [Option.some_inj] at h
      subst h
      refine ⟨⟨bq, bs.take 4, ?_⟩, ⟨aq, as2.take 4, ?_⟩⟩
      · simp [depthTopBids, hsb, TOP_N]
      · simp [depthTopAsks, hsa, TOP_N]
    case _ => cases h

/-- along the ingestion path the stored best bid/ask always equal the price
of the head of the stored top bid/ask levels, whenever those are
nonempty. -/
lemma ingest_best_matches_top (mm mt : Nat) (ops : List IngestOp) :
    (∀ l, (applyIngestOps (MarketStore.fresh mm mt) ops).top_bids.head? = some l →
      (applyIngestOps (MarketStore.fresh mm mt) ops).best_bid = some l.1) ∧
    (∀ l, (applyIngestOps (MarketStore.fresh mm mt) ops).top_asks.head? = some l →
      (applyIngestOps (MarketStore.fresh mm mt) ops).best_ask = some l.1) := by
  induction ops using List.reverseRecOn with
  | nil =>
      constructor <;> intro l hl <;> simp [MarketStore.fresh, applyIngestOps] at hl
  | append_singleton ops op ih =>
      obtain ⟨ihb, iha⟩ := ih
      rw [applyIngestOps_append]
      cases op with
      | depth bids asks now =>
          simp only [applyIngestOp, processDepthUpdate]
          cases hc : computeDepthMetrics bids asks now with
          | none => exact ⟨ihb, iha⟩
          | some u =>
              obtain ⟨⟨bq, rest, hb⟩, ⟨aq, rest2, ha⟩⟩ := computeDepthMetrics_tops hc
              constructor
              · intro l hl
                simp only [update_book_metrics, hb, Option.getD_some, List.head?_cons,
                  Option.some_inj] at hl ⊢
                rw [← hl]
              · intro l hl
                simp only [update_book_metrics, ha, Option.getD_some, List.head?_cons,
                  Option.some_inj] at hl ⊢
                rw [← hl]
      | trade t => exact ⟨ihb, iha⟩
      | clearOp =>
          constructor <;> intro l hl <;> simp [applyIngestOp, clear] at hl

lemma reconnect_step (k : Nat) :
    min (min ((2:ℚ) ^ k) 30 * 2) 30 = min ((2:ℚ) ^ (k + 1)) 30 := by
  rw [min_mul_of_nonneg _ _ (by norm_num : (0:ℚ) ≤ 2), min_assoc]
  norm_num [pow_succ]

/-- after `n` further consecutive failures from a delay of `min (2^k) 30`,
the delays slept are `min (2^(k+i)) 30` for `i < n`. -/
lemma sleptDelays_failures (msgs : List String) : ∀ k : Nat,
    sleptDelays (min ((2:ℚ) ^ k) 30) (msgs.map ConnEvent.failure)
      = (List.range msgs.length).map (fun i => min ((2:ℚ) ^ (k + i)) 30) := by
  induction msgs with
  | nil => intro k; simp [sleptDelays]
  | cons m ms ih =>
      intro k
      simp only [List.map_cons, sleptDelays, reconnectDelayAfter, List.length_cons]
      have h2 : min (min ((2:ℚ) ^ k) 30 * RECONNECT_MULTIPLIER) RECONNECT_MAX_DELAY
          = min ((2:ℚ) ^ (k + 1)) 30 := by
        simpa [RECONNECT_MULTIPLIER, RECONNECT_MAX_DELAY] using reconnect_step k
      rw [h2, ih (k + 1), List.range_succ_eq_map, List.map_cons, List.map_map]
      congr 1
      apply List.map_congr_left
      intro i _
      simp only [Function.comp_apply]
      congr 2
      omega

/-- the reconnect loop of `connect_and_stream` catches every connection
failure internally, so it always finishes normally: the coroutine never
raises towards `try_connect`. -/
lemma connectLoop_ok (evs : List ConnEvent) : ∀ s, ∃ s', connectLoop s evs = .ok s' := by
  induction evs with
  | nil => intro s; exact ⟨_, rfl⟩
  | cons ev evs ih =>
      intro s
      simp only [connectLoop]
      split
      · exact ih _
      · exact ⟨_, rfl⟩

/-- C1: in every state reachable by any sequence of ingestion-path calls
(`_process_depth_update` — whose `top_bids[0]`/`top_asks[0]` carry the
same `best_bid`/`best_ask` passed alongside them — `add_trade` and
`clear`), the snapshot's `best_bid`/`best_ask` equal the price of
`top_bids[0]`/`top_asks[0]` whenever those lists are nonempty: the
best-price pair and the top-of-book levels always stem from the same
update call. -/
theorem C1_snapshot_best_matches_top (mm mt : Nat) (ops : List IngestOp) :
    (∀ l, (snapshot (applyIngestOps (MarketStore.fresh mm mt) ops)).top_bids.head? = some l →
      (snapshot (applyIngestOps (MarketStore.fresh mm mt) ops)).best_bid = some l.1) ∧
    (∀ l, (snapshot (applyIngestOps (MarketStore.fresh mm mt) ops)).top_asks.head? = some l →
      (snapshot (applyIngestOps (MarketStore.fresh mm mt) ops)).best_ask = some l.1) :=
  ingest_best_matches_top mm mt ops

/-- C1 witness: one concrete depth message on a fresh store. -/
theorem C1_witness :
    (snapshot (applyIngestOps (MarketStore.fresh 8 8)
      [IngestOp.depth [(100, 2)] [(101, 3)] 7])).best_bid = some 100 :=
  (C1_snapshot_best_matches_top 8 8 [IngestOp.depth [(100, 2)] [(101, 3)] 7]).1
    (100, 2) (by decide)

/-- C2: for capacity `c > 0` and any `N > c` consecutive
`update_book_metrics` calls on a fresh store, each of the four series has
length exactly `c` and holds the values of the last `c` calls in arrival
order (oldest first); an insertion at capacity evicts exactly the oldest
element. -/
theorem C2_capacity_invariant (c mt : Nat) (us : List BookUpdate)
    (hc : 0 < c) (hN : c < us.length) :
    (applyStoreOps (MarketStore.fresh c mt) (us.map StoreOp.update)).mid_prices
      = (us.map (fun u => u.mid_price)).drop (us.length - c) ∧
    (applyStoreOps (MarketStore.fresh c mt) (us.map StoreOp.update)).spreads
      = (us.map (fun u => u.spread)).drop (us.length - c) ∧
    (applyStoreOps (MarketStore.fresh c mt) (us.map StoreOp.update)).imbalances
      = (us.map (fun u => u.imbalance)).drop (us.length - c) ∧
    (applyStoreOps (MarketStore.fresh c mt) (us.map StoreOp.update)).timestamps
      = (us.map (fun u => u.timestamp)).drop (us.length - c) ∧
    (applyStoreOps (MarketStore.fresh c mt) (us.map StoreOp.update)).mid_prices.length = c ∧
    (applyStoreOps (MarketStore.fresh c mt) (us.map StoreOp.update)).spreads.length = c ∧
    (applyStoreOps (MarketStore.fresh c mt) (us.map StoreOp.update)).imbalances.length = c ∧
    (applyStoreOps (MarketStore.fresh c mt) (us.map StoreOp.update)).timestamps.length = c ∧
    (∀ (xs : List ℚ) (x : ℚ), xs.length = c →
      dequeAppend c xs x = xs.drop 1 ++ [x]) := by
  obtain ⟨h1, h2, h3, h4⟩ := applyStoreOps_updates us (MarketStore.fresh c mt)
  have key : ∀ f : BookUpdate → ℚ,
      List.foldl (dequeAppend c) ([] : List ℚ) (us.map f)
        = (us.map f).drop (us.length - c) := by
    intro f
    rw [foldl_dequeAppend c (us.map f) [] (by simp), List.nil_append]
    simp [lastN]
  have hlen : ∀ f : BookUpdate → ℚ, ((us.map f).drop (us.length - c)).length = c := by
    intro f
    simp only [List.length_drop, List.length_map]
    omega
  have hser : ∀ f : BookUpdate → ℚ,
      List.foldl (dequeAppend (MarketStore.fresh c mt).maxMetrics)
        (MarketStore.fresh c mt).mid_prices (us.map f)
        = (us.map f).drop (us.length - c) := fun f => key f
  refine ⟨h1.trans (key _), h2.trans (key _), h3.trans (key _), h4.trans (key _),
    ?_, ?_, ?_, ?_, ?_⟩
  · rw [h1.trans (key _)]; exact hlen _
  · rw [h2.trans (key _)]; exact hlen _
  · rw [h3.trans (key _)]; exact hlen _
  · rw [h4.trans (key _)]; exact hlen _
  · intro xs x hx
    simp only [dequeAppend]
    rw [if_pos (by simp [hx]), List.drop_append_of_le_length (by omega : 1 ≤ xs.length)]

/-- C2 witness: capacity 2, three calls. -/
theorem C2_witness :
    (applyStoreOps (MarketStore.fresh 2 5) ([wu 1, wu 2, wu 3].map StoreOp.update)).mid_prices
      = ([wu 1, wu 2, wu 3].map (fun u => u.mid_price)).drop ([wu 1, wu 2, wu 3].length - 2) :=
  (C2_capacity_invariant 2 5 [wu 1, wu 2, wu 3] (by decide) (by decide)).1

/-- C3: after any sequence of `update_book_metrics`, `add_trade` and
`clear` calls the four series have equal lengths, and there is one single
suffix `L` of the `update_book_metrics` call sequence whose pointwise
projections the four series equal — so the i-th elements of all four
originate from the same call. -/
theorem C3_alignment_invariant (mm mt : Nat) (ops : List StoreOp) :
    ((applyStoreOps (MarketStore.fresh mm mt) ops).mid_prices.length
        = (applyStoreOps (MarketStore.fresh mm mt) ops).spreads.length ∧
      (applyStoreOps (MarketStore.fresh mm mt) ops).spreads.length
        = (applyStoreOps (MarketStore.fresh mm mt) ops).imbalances.length ∧
      (applyStoreOps (MarketStore.fresh mm mt) ops).imbalances.length
        = (applyStoreOps (MarketStore.fresh mm mt) ops).timestamps.length) ∧
    ∃ L, L <:+ storeUpdates ops ∧
      (applyStoreOps (MarketStore.fresh mm mt) ops).mid_prices
        = L.map (fun u => u.mid_price) ∧
      (applyStoreOps (MarketStore.fresh mm mt) ops).spreads
        = L.map (fun u => u.spread) ∧
      (applyStoreOps (MarketStore.fresh mm mt) ops).imbalances
        = L.map (fun u => u.imbalance) ∧
      (applyStoreOps (MarketStore.fresh mm mt) ops).timestamps
        = L.map (fun u => u.timestamp) := by
  obtain ⟨L, T, hL, hT, hmm, hmt, h1, h2, h3, h4, hR, hlenL, hlenT⟩ :=
    store_reach_spec mm mt ops
  exact ⟨⟨by simp [h1, h2], by simp [h2, h3], by simp [h3, h4]⟩,
    L, hL, h1, h2, h3, h4⟩

/-- C4: a depth update with an empty bid side or an empty ask side leaves
the store state completely unchanged: no metric point is stored and the
prior best bid/ask, volumes and top levels are kept as they were. -/
theorem C4_empty_book_noop (s : MarketState) (bids asks : List (ℚ × ℚ)) (now : ℚ)
    (h : bids = [] ∨ asks = []) :
    processDepthUpdate s bids asks now = s := by
  rcases h with rfl | rfl <;> simp [processDepthUpdate, computeDepthMetrics]

/-- C4 witness: empty bid side against a fresh store. -/
theorem C4_witness :
    processDepthUpdate (MarketStore.fresh 4 4) [] [(1, 1)] 0 = MarketStore.fresh 4 4 :=
  C4_empty_book_noop (MarketStore.fresh 4 4) [] [(1, 1)] 0 (Or.inl rfl)

/-- C5: the imbalance computed by `_process_depth_update` equals
`(bidVolume - askVolume) / (bidVolume + askVolume)` when the total top-N
volume is positive, equals exactly 0 when the total is 0, and lies in
`[-1, 1]` whenever all level quantities are non-negative. -/
theorem C5_imbalance_formula_and_bound (bids asks : List (ℚ × ℚ)) :
    (0 < depthBidVolume bids + depthAskVolume asks →
      depthImbalance bids asks
        = (depthBidVolume bids - depthAskVolume asks)
            / (depthBidVolume bids + depthAskVolume asks)) ∧
    (depthBidVolume bids + depthAskVolume asks = 0 → depthImbalance bids asks = 0) ∧
    ((∀ l ∈ bids, 0 ≤ l.2) → (∀ l ∈ asks, 0 ≤ l.2) →
      -1 ≤ depthImbalance bids asks ∧ depthImbalance bids asks ≤ 1) := by
  refine ⟨fun h => by rw [depthImbalance, if_pos h], fun h => by rw [depthImbalance, h]; simp, ?_⟩
  intro hb ha
  have hbv : 0 ≤ depthBidVolume bids := by
    apply List.sum_nonneg
    intro x hx
    simp only [depthBidVolume, depthTopBids, List.mem_map] at hx
    obtain ⟨l, hl, rfl⟩ := hx
    refine hb l ?_
    have := List.take_subset TOP_N (sortBids bids) hl
    simpa [sortBids] using this
  have hav : 0 ≤ depthAskVolume asks := by
    apply List.sum_nonneg
    intro x hx
    simp only [depthAskVolume, depthTopAsks, List.mem_map] at hx
    obtain ⟨l, hl, rfl⟩ := hx
    refine ha l ?_
    have := List.take_subset TOP_N (sortAsks asks) hl
    simpa [sortAsks] using this
  rcases (add_nonneg hbv hav).eq_or_lt with h0 | hpos
  · rw [depthImbalance, ← h0]
    norm_num
  · rw [depthImbalance, if_pos hpos]
    constructor
    · rw [le_div_iff₀ hpos]
      linarith
    · rw [div_le_one hpos]
      linarith

/-- C5 witness: the design document's example book (bid volumes
`[10, 8, 6, 4, 2]`, ask volumes `[2, 2, 2, 2, 2]`, imbalance `0.5`). -/
theorem C5_witness :
    depthImbalance exBids exAsks
        = (depthBidVolume exBids - depthAskVolume exAsks)
            / (depthBidVolume exBids + depthAskVolume exAsks) ∧
    -1 ≤ depthImbalance exBids exAsks ∧ depthImbalance exBids exAsks ≤ 1 ∧
    depthImbalance exBids exAsks = 1/2 :=
  ⟨(C5_imbalance_formula_and_bound exBids exAsks).1 (by
      norm_num [depthBidVolume, depthAskVolume, depthTopBids, depthTopAsks, sortBids,
        sortAsks, exBids, exAsks, TOP_N, List.insertionSort, List.orderedInsert,
        bidOrder, askOrder]),
    ((C5_imbalance_formula_and_bound exBids exAsks).2.2
      (by norm_num [exBids]) (by norm_num [exAsks])).1,
    ((C5_imbalance_formula_and_bound exBids exAsks).2.2
      (by norm_num [exBids]) (by norm_num [exAsks])).2,
    by
      norm_num [depthImbalance, depthBidVolume, depthAskVolume, depthTopBids, depthTopAsks,
        sortBids, sortAsks, exBids, exAsks, TOP_N, List.insertionSort, List.orderedInsert,
        bidOrder, askOrder]⟩

/-- C6: starting from `RECONNECT_BASE_DELAY = 1`, the delays slept over any
run of consecutive connection failures are `min (2^k) 30` for
`k = 0, 1, 2, ...` — concretely `1, 2, 4, 8, 16, 30, 30, ...` — and every
successful connection resets the delay to 1. -/
theorem C6_backoff_sequence :
    (∀ msgs : List String,
      sleptDelays RECONNECT_BASE_DELAY (msgs.map ConnEvent.failure)
        = (List.range msgs.length).map (fun k => min ((2:ℚ) ^ k) 30)) ∧
    (∀ d : ℚ, reconnectDelayAfter d ConnEvent.success = RECONNECT_BASE_DELAY) ∧
    sleptDelays RECONNECT_BASE_DELAY
        (List.map ConnEvent.failure ["a", "b", "c", "d", "e", "f", "g"])
      = [1, 2, 4, 8, 16, 30, 30] := by
  refine ⟨?_, fun d => rfl, by
    norm_num [sleptDelays, reconnectDelayAfter, RECONNECT_BASE_DELAY,
      RECONNECT_MULTIPLIER, RECONNECT_MAX_DELAY]⟩
  intro msgs
  have h0 : RECONNECT_BASE_DELAY = min ((2:ℚ) ^ (0:Nat)) 30 := by
    norm_num [RECONNECT_BASE_DELAY]
  rw [h0, sleptDelays_failures msgs 0]
  simp

/-- C7: the worker never switches to the mock data source, contradicting
the documented failover threshold.  `connect_and_stream` catches every
connection exception internally (backing off and retrying), so the 451
handler inside `try_connect` — awaited exactly once — is unreachable and
`http_451_count` stays 0 even on three straight HTTP-451 rejections. -/
theorem C7_no_failover_code_bug :
    (∀ evs : List ConnEvent, runAsyncLoop evs = (0, false)) ∧
    runAsyncLoop [ConnEvent.failure "server rejected WebSocket connection: HTTP 451",
      ConnEvent.failure "server rejected WebSocket connection: HTTP 451",
      ConnEvent.failure "server rejected WebSocket connection: HTTP 451"] = (0, false) := by
  have hmain : ∀ evs : List ConnEvent, runAsyncLoop evs = (0, false) := by
    intro evs
    obtain ⟨s', hs⟩ := connectLoop_ok evs { ClientState.init with running := true }
    simp [runAsyncLoop, tryConnect, connectAndStream, hs]
  exact ⟨hmain, hmain _⟩

/-- C8: for every reachable store state the snapshot record has
`data_points = |mid_prices|` with all four series sharing that length,
`last_update` the last timestamp (or `none` when there is none), the
trades most-recent-first (reverse of the stored insertion order), and the
four series oldest-first — pointwise projections of one single suffix of
the update-call sequence. -/
theorem C8_snapshot_contract (mm mt : Nat) (ops : List StoreOp) :
    (snapshot (applyStoreOps (MarketStore.fresh mm mt) ops)).data_points
      = (snapshot (applyStoreOps (MarketStore.fresh mm mt) ops)).mid_prices.length ∧
    (snapshot (applyStoreOps (MarketStore.fresh mm mt) ops)).spreads.length
      = (snapshot (applyStoreOps (MarketStore.fresh mm mt) ops)).mid_prices.length ∧
    (snapshot (applyStoreOps (MarketStore.fresh mm mt) ops)).imbalances.length
      = (snapshot (applyStoreOps (MarketStore.fresh mm mt) ops)).mid_prices.length ∧
    (snapshot (applyStoreOps (MarketStore.fresh mm mt) ops)).timestamps.length
      = (snapshot (applyStoreOps (MarketStore.fresh mm mt) ops)).mid_prices.length ∧
    (snapshot (applyStoreOps (MarketStore.fresh mm mt) ops)).last_update
      = (snapshot (applyStoreOps (MarketStore.fresh mm mt) ops)).timestamps.getLast? ∧
    ∃ L T, L <:+ storeUpdates ops ∧ T <:+ storeTrades ops ∧
      (snapshot (applyStoreOps (MarketStore.fresh mm mt) ops)).recent_trades = T.reverse ∧
      (snapshot (applyStoreOps (MarketStore.fresh mm mt) ops)).mid_prices
        = L.map (fun u => u.mid_price) ∧
      (snapshot (applyStoreOps (MarketStore.fresh mm mt) ops)).spreads
        = L.map (fun u => u.spread) ∧
      (snapshot (applyStoreOps (MarketStore.fresh mm mt) ops)).imbalances
        = L.map (fun u => u.imbalance) ∧
      (snapshot (applyStoreOps (MarketStore.fresh mm mt) ops)).timestamps
        = L.map (fun u => u.timestamp) := by
  obtain ⟨L, T, hL, hT, hmm, hmt, h1, h2, h3, h4, hR, hlenL, hlenT⟩ :=
    store_reach_spec mm mt ops
  exact ⟨rfl, by simp [snapshot, h1, h2], by simp [snapshot, h1, h3],
    by simp [snapshot, h1, h4], rfl,
    L, T, hL, hT, by simp [snapshot, hR], h1, h2, h3, h4⟩

/-- C9 counterexample: `MarketStore(max_metrics=0, max_trades=100)` — a
capacity ≤ 0 — does not raise: `collections.deque` accepts `maxlen=0`,
so construction succeeds and returns a usable (if permanently empty)
store. -/
theorem C9_counterexample :
    MarketStore.init 0 100 = .ok (MarketStore.fresh 0 100) := rfl

/-- C9 amended: construction raises exactly when a capacity is negative
(`deque` rejects a negative `maxlen`); a capacity of 0 is accepted. -/
theorem C9_amended_construction (mm mt : Int) :
    initRaises mm mt = (decide (mm < 0) || decide (mt < 0)) := by
  by_cases h1 : mm < 0 <;> by_cases h2 : mt < 0 <;>
    simp [initRaises, MarketStore.init, dequeNew, h1, h2, Bind.bind, Except.bind,
      pure, Except.pure]

/-- C10: an `update_book_metrics` call with the `top_bids`/`top_asks`
defaults (`None`) replaces the best prices and volumes and appends one
point to each series while leaving the stored top levels unchanged — so a
later snapshot can report a `best_bid` that differs from the price of
`top_bids[0]`, as the concrete two-call run `demoMismatch` shows. -/
theorem C10_default_tops_frame (s : MarketState) (u : BookUpdate)
    (hb : u.top_bids = none) (ha : u.top_asks = none) :
    (update_book_metrics s u).top_bids = s.top_bids ∧
    (update_book_metrics s u).top_asks = s.top_asks ∧
    (update_book_metrics s u).best_bid = some u.best_bid ∧
    (update_book_metrics s u).best_ask = some u.best_ask ∧
    (update_book_metrics s u).bid_volume = some u.bid_volume ∧
    (update_book_metrics s u).ask_volume = some u.ask_volume ∧
    (update_book_metrics s u).mid_prices
      = dequeAppend s.maxMetrics s.mid_prices u.mid_price ∧
    (update_book_metrics s u).spreads
      = dequeAppend s.maxMetrics s.spreads u.spread ∧
    (update_book_metrics s u).imbalances
      = dequeAppend s.maxMetrics s.imbalances u.imbalance ∧
    (update_book_metrics s u).timestamps
      = dequeAppend s.maxMetrics s.timestamps u.timestamp ∧
    (snapshot demoMismatch).best_bid = some 200 ∧
    (snapshot demoMismatch).top_bids.head? = some (100, 2) ∧
    (snapshot demoMismatch).best_bid
      ≠ ((snapshot demoMismatch).top_bids.head?).map Prod.fst := by
  refine ⟨by simp [update_book_metrics, hb], by simp [update_book_metrics, ha],
    rfl, rfl, rfl, rfl, rfl, rfl, rfl, rfl, by decide, by decide, by decide⟩

/-- C10 witness: the no-tops call applied to a fresh store. -/
theorem C10_witness :
    (update_book_metrics (MarketStore.fresh 3 3) demoNoTopsUpdate).top_bids = [] ∧
    (update_book_metrics (MarketStore.fresh 3 3) demoNoTopsUpdate).best_bid = some 200 := by
  have h := C10_default_tops_frame (MarketStore.fresh 3 3) demoNoTopsUpdate rfl rfl
  exact ⟨h.1, h.2.2.1⟩

end RMS
